import Mathlib

/-!
Verification of the audio recorder's record/playback session controller.

The development shallowly embeds the native audio modules of the repository:
the Android Kotlin module (files `src/unnamed/part_000` and
`src/unnamed/part_001`, class `AudioModule`), the iOS Swift module
(`src/ios/AudioModule/AudioModule.swift`) and the second iOS Swift variant
(`src/unnamed/part_002`).  Mutable module fields become a state record,
promise-returning bridge methods become functions from state (plus the
relevant environment inputs) to a result/state pair, and the background
capture/render loops become recursive functions over the sequence of chunk
transfers they perform.  Machine doubles used for progress reporting are
modelled by exact rationals; byte buffers are modelled by their byte counts
or by lists of natural numbers below 256.
-/

/-- Outcome of a React Native bridge call: the promise is either resolved
with a value or rejected with an error code and message. -/
inductive PResult (α : Type) where
  | resolve (value : α)
  | reject (code : String) (message : String)
deriving DecidableEq, Repr

/-- The platform storage directory a file is placed in.  The Android module
uses the app's external files directory, the first iOS variant the Documents
directory, and the second iOS variant (`src/unnamed/part_002`) the temporary
directory. -/
inductive StorageDir where
  | externalFiles
  | documents
  | temporary
deriving DecidableEq, Repr

/-- Observable events of a synchronous stop call, in the order they occur
before the call returns.  `fileClosed` is performed by the background task
as its loop exits (closing its stream); the join only returns afterwards. -/
inductive Ev where
  | clearRunFlag
  | fileClosed
  | joinTask
  | deviceStopped
  | deviceReleased
deriving DecidableEq, Repr

/-- Event a occurs strictly before event b in the trace l. -/
def evBefore (a b : Ev) (l : List Ev) : Prop :=
  ∃ i j, i < j ∧ l.get? i = some a ∧ l.get? j = some b

namespace Android

/-- Mutable fields of the Android `AudioModule` class
(`src/unnamed/part_000`, lines 77-86).  Handle fields (`AudioRecord?`,
`AudioTrack?`, `Thread`) are modelled by presence only; `fileOpen` and
`playbackFileOpen` record whether the stream owned by the corresponding
background task is open (the `FileOutputStream`/`FileInputStream` are local
to the threads in the source; we track them to state handle-release
properties).  The byte counters `playbackBytesWritten` and
`playbackTotalBytes` are Kotlin `Int` fields (part_000 lines 85-86): they
are modelled as mathematical integers, with every operation the source
performs on them wrapped into the 32-bit two's-complement range by
`toInt32`. -/
structure AState where
  isRecording : Bool
  audioRecord : Option Unit
  recordingThread : Option Unit
  fileOpen : Bool
  filePath : Option String
  isPlaying : Bool
  audioTrack : Option Unit
  playbackThread : Option Unit
  playbackFileOpen : Bool
  playbackBytesWritten : Int
  playbackTotalBytes : Int
deriving DecidableEq, Repr

/-- Initial field values of a freshly constructed module: null handles,
false flags, zero counters. -/
def initState : AState :=
  { isRecording := false
    audioRecord := none
    recordingThread := none
    fileOpen := false
    filePath := none
    isPlaying := false
    audioTrack := none
    playbackThread := none
    playbackFileOpen := false
    playbackBytesWritten := 0
    playbackTotalBytes := 0 }

/-- Two's-complement wrap of a mathematical integer into the Kotlin `Int`
range `[-2^31, 2^31)`: the semantics of Kotlin's truncating `Long.toInt()`
conversion and of overflowing `Int` arithmetic such as `+=`. -/
def toInt32 (m : Int) : Int :=
  (m + 2147483648) % 4294967296 - 2147483648

/-- `getRecordingFile` (part_000 lines 99-103): a file named
`recording_<timestamp>.pcm` in the external files directory, where the
timestamp is `System.currentTimeMillis() / 1000`. -/
def getRecordingFile (nowMillis : Nat) : StorageDir × String :=
  (StorageDir.externalFiles, "recording_" ++ Nat.repr (nowMillis / 1000) ++ ".pcm")

/-- Environment inputs consumed by `startRecording`: permission state, the
outcome of the trial microphone acquisition, the outcome of constructing the
real `AudioRecord`, the outcome of `AudioRecord.startRecording()`, and the
current time in milliseconds. -/
structure RecEnv where
  permissionGranted : Bool
  micProbeOk : Bool
  initOk : Bool
  startOk : Bool
  nowMillis : Nat

/-- `startRecording` (part_000 lines 186-278).  Guard: already recording is
rejected immediately.  Then permission check, microphone probe, file-path
assignment, `AudioRecord` construction, `startRecording()`; on success the
run flag is set and the capture thread spawned.  Note that `filePath` is
assigned before the construction steps, so a late failure leaves it
mutated, exactly as in the source. -/
def startRecording (env : RecEnv) (st : AState) : PResult (Option String) × AState :=
  if st.isRecording then
    (.reject "record_error" "Already recording", st)
  else if !env.permissionGranted then
    (.reject "permission_denied" "Microphone permission not granted", st)
  else if !env.micProbeOk then
    (.reject "record_error" "Microphone is not available or being used by another app", st)
  else
    let path := (getRecordingFile env.nowMillis).2
    let st1 := { st with filePath := some path }
    if !env.initOk then
      (.reject "record_error" "Failed to initialize AudioRecord", st1)
    else if !env.startOk then
      (.reject "record_error" "Failed to start recording", st1)
    else
      (.resolve (some path),
       { st1 with isRecording := true, audioRecord := some (),
                  recordingThread := some (), fileOpen := true })

/-- One iteration of the capture loop (part_000 lines 284-289): the number
of bytes returned by `audioRecord.read` (0 models a null handle or an empty
read, which writes nothing) and whether `os.write` raised an `IOException`
for this chunk. -/
structure CaptureStep where
  read : Nat
  writeErr : Bool
deriving DecidableEq, Repr

/-- `writeAudioDataToFile` (part_000 lines 280-295) over the sequence of
loop iterations performed while the run flag was observed set.  Returns the
final file size (starting from `size`) and whether the loop was terminated
by an `IOException`: the try/catch in the source wraps the whole
`while` loop, so the first write error propagates out of the loop, is
logged, and the function returns. -/
def writeAudioDataToFile : List CaptureStep → Nat → Nat × Bool
  | [], size => (size, false)
  | s :: rest, size =>
    if 0 < s.read then
      if s.writeErr then (size, true)
      else writeAudioDataToFile rest (size + s.read)
    else writeAudioDataToFile rest size

/-- The destination file's size after each iteration of the same loop
(instrumentation of `writeAudioDataToFile` for stating size invariants).
After an `IOException` the loop is over and the size stays at its last
value. -/
def captureFileSizes : List CaptureStep → Nat → List Nat
  | [], _ => []
  | s :: rest, size =>
    if 0 < s.read then
      if s.writeErr then [size]
      else (size + s.read) :: captureFileSizes rest (size + s.read)
    else size :: captureFileSizes rest size

/-- `stopRecording` (part_000 lines 297-323).  On an idle module: reject,
no mutation.  Otherwise: clear the run flag, join the capture thread (whose
loop exit closes the file stream), stop and release the `AudioRecord`, and
resolve with the saved file path.  The third component is the event trace
of the call in program order. -/
def stopRecording (st : AState) : PResult (Option String) × AState × List Ev :=
  if !st.isRecording then
    (.reject "not_recording" "No active recording to stop", st, [])
  else
    (.resolve st.filePath,
     { st with isRecording := false, recordingThread := none,
               fileOpen := false, audioRecord := none },
     [Ev.clearRunFlag, Ev.fileClosed, Ev.joinTask, Ev.deviceStopped, Ev.deviceReleased])

/-- Kotlin's `String.startsWith` / Swift's `starts(with:)`: character-level
prefix test. -/
def kotlinStartsWith (s p : String) : Bool :=
  p.toList.isPrefixOf s.toList

/-- Kotlin's `String.endsWith`: character-level suffix test. -/
def kotlinEndsWith (s p : String) : Bool :=
  p.toList.isSuffixOf s.toList

/-- The filename filter of `getRecordings` (part_000 lines 335-337). -/
def matchesRecordingName (name : String) : Bool :=
  kotlinStartsWith name "recording_" && kotlinEndsWith name ".pcm"

/-- Insert a string into a descending-sorted list, keeping it descending
(model of one step of Kotlin's `sortedDescending()`). -/
def insertDesc (x : String) : List String → List String
  | [] => [x]
  | y :: ys => if y ≤ x then x :: y :: ys else y :: insertDesc x ys

/-- Kotlin's `sortedDescending()` on strings: sort by natural (lexicographic)
order, largest first, modelled by insertion sort. -/
def sortDesc : List String → List String
  | [] => []
  | x :: xs => insertDesc x (sortDesc xs)

/-- `getRecordings` (part_000 lines 326-343).  The input is the directory
listing: `none` when the storage directory is null or does not exist (or
`listFiles` returned null), in which case an empty array is resolved;
otherwise the file names are filtered by the recording pattern and sorted
descending. -/
def getRecordings (dirListing : Option (List String)) : PResult (List String) :=
  match dirListing with
  | none => .resolve []
  | some names => .resolve (sortDesc (names.filter matchesRecordingName))

/-- `playRecording` (part_000 lines 346-393).  Guard: already playing is
rejected immediately.  The filesystem is modelled by a map from file name
to byte length (`file.length()` is a Java `Long`, modelled as a natural
number); a missing file makes the `FileInputStream` constructor throw,
which is caught and rejected.  On success the run flag is set, the
counters initialised — `playbackTotalBytes = file.length().toInt()` (line
368), a truncating `Long → Int` conversion modelled by `toInt32`, so a
file of `2^31` bytes or more yields a negative total — and the render
thread spawned. -/
def playRecording (fs : String → Option Nat) (fileName : String) (st : AState) :
    PResult Bool × AState :=
  if st.isPlaying then
    (.reject "playback_error" "Already playing", st)
  else
    match fs fileName with
    | none => (.reject "playback_error" "Failed to play recording", st)
    | some n =>
      (.resolve true,
       { st with isPlaying := true, audioTrack := some (),
                 playbackBytesWritten := 0, playbackTotalBytes := toInt32 n,
                 playbackThread := some (), playbackFileOpen := true })

/-- The render loop of the playback thread (part_000 lines 370-377), run to
natural end-of-file: each iteration reads `min b remaining` bytes from the
source stream (a `FileInputStream` on a regular file of which `remaining`
bytes are left delivers up to the buffer size `b`), writes them to the
`AudioTrack`, and accumulates `playbackBytesWritten += read` (line 376) —
a Kotlin `Int` addition that wraps at `2^31`, modelled by `toInt32`.  The
result is the list of successive `playbackBytesWritten` values.  `fuel`
bounds the number of iterations; since every iteration with `0 < b`
consumes at least one byte of the file, `fuel = remaining` suffices (see
`renderLoop`). -/
def renderLoopAux (b : Nat) : Nat → Nat → Int → List Int
  | 0, _, _ => []
  | f + 1, remaining, bw =>
    if remaining = 0 ∨ b = 0 then []
    else
      toInt32 (bw + min b remaining) ::
        renderLoopAux b f (remaining - min b remaining)
          (toInt32 (bw + min b remaining))

/-- The successive `playbackBytesWritten` values of a full (uninterrupted)
playback of an `n`-byte file with buffer size `b`, starting from counter 0. -/
def renderLoop (b n : Nat) : List Int :=
  renderLoopAux b n n 0

/-- The final `playbackBytesWritten` value after the render loop reaches
end-of-file. -/
def renderFinal (b n : Nat) : Int :=
  (renderLoop b n).getLastD 0

/-- End-of-loop epilogue of the playback thread (part_000 lines 381-385),
composed with the loop run to natural end-of-file (no stop signal): the
thread reads the source file (of `fileLen` bytes — the stream delivers
until the actual end of the file, regardless of the wrapped
`playbackTotalBytes` counter) to exhaustion, then stops and releases the
`AudioTrack`, nulls it, closes the input stream and clears the run flag.
The counters are left at their final values.  (Intended to be applied to
the state right after `playRecording`, where `playbackBytesWritten = 0`.) -/
def playbackThreadToEOF (b fileLen : Nat) (st : AState) : AState :=
  { st with
    playbackBytesWritten :=
      (renderLoopAux b fileLen fileLen
          st.playbackBytesWritten).getLastD st.playbackBytesWritten,
    audioTrack := none, playbackThread := none, playbackFileOpen := false,
    isPlaying := false }

/-- Result of `getPlaybackStatus`: position and duration in seconds.  The
source computes doubles; we model the two exact quotients. -/
structure PlaybackStatus where
  position : ℚ
  duration : ℚ
deriving DecidableEq, Repr

/-- `getPlaybackStatus` (part_000 lines 396-412): position and duration are
the byte counters divided by the fixed byte rate
`SAMPLE_RATE * 2 * 1 = 44100 * 2 * 1` (16-bit PCM, mono).  It reads only
the counters; it does not consult the run flag or the handles.  The
counters are Kotlin `Int`s, so a wrapped (negative) counter yields a
negative position or duration. -/
def getPlaybackStatus (st : AState) : PlaybackStatus :=
  { position := (st.playbackBytesWritten : ℚ) / (44100 * 2 * 1)
    duration := (st.playbackTotalBytes : ℚ) / (44100 * 2 * 1) }

/-- A live playback session state with Kotlin-`Int` counters `bw` (bytes
written so far) and `n` (total bytes as stored, possibly wrapped). -/
def activePlaybackState (bw n : Int) : AState :=
  { initState with
    isPlaying := true, audioTrack := some (), playbackThread := some (),
    playbackFileOpen := true, playbackBytesWritten := bw,
    playbackTotalBytes := n }

/-- `stopPlayback` (part_000 lines 415-427).  On a live session: clear the
run flag, join the playback thread (whose epilogue stops and releases the
`AudioTrack` and closes the stream), then resolve `stopped = true`.  On an
idle module: resolve `stopped = false` — note this branch resolves rather
than rejecting. -/
def stopPlayback (st : AState) : PResult Bool × AState × List Ev :=
  if st.isPlaying then
    (.resolve true,
     { st with isPlaying := false, audioTrack := none, playbackThread := none,
               playbackFileOpen := false },
     [Ev.clearRunFlag, Ev.deviceStopped, Ev.deviceReleased, Ev.fileClosed, Ev.joinTask])
  else
    (.resolve false, st, [])

end Android

/-- Modelled from the spec: the capture-loop failure policy as the spec
states it — "a read/write error inside the loop is logged and the loop
continues best-effort (drops that chunk) rather than aborting the whole
recording".  Same iteration data as `Android.writeAudioDataToFile`, but a
write error only drops the current chunk and the loop keeps running; the
Boolean records whether the loop was aborted by an error (per the spec,
never). -/
def specWriteLoop : List Android.CaptureStep → Nat → Nat × Bool
  | [], size => (size, false)
  | s :: rest, size =>
    if 0 < s.read then
      if s.writeErr then specWriteLoop rest size
      else specWriteLoop rest (size + s.read)
    else specWriteLoop rest size

namespace Ios

/-- Little-endian encoding of a `UInt16` value as two bytes
(`UInt16.littleEndianData` in AudioModule.swift, lines 168-173). -/
def littleEndianData16 (n : Nat) : List Nat :=
  [n % 256, n / 256 % 256]

/-- Little-endian encoding of a `UInt32` value as four bytes
(`UInt32.littleEndianData` in AudioModule.swift, lines 174-179). -/
def littleEndianData32 (n : Nat) : List Nat :=
  [n % 256, n / 256 % 256, n / 65536 % 256, n / 16777216 % 256]

/-- ASCII bytes of a string (`"RIFF".data(using: .ascii)`). -/
def asciiBytes (s : String) : List Nat :=
  s.toList.map Char.toNat

/-- Decode four bytes as a little-endian 32-bit value (verification
helper, inverse of `littleEndianData32`). -/
def deLE32 (bs : List Nat) : Nat :=
  match bs with
  | [b0, b1, b2, b3] => b0 + 256 * b1 + 65536 * b2 + 16777216 * b3
  | _ => 0

/-- Decode two bytes as a little-endian 16-bit value (verification helper,
inverse of `littleEndianData16`). -/
def deLE16 (bs : List Nat) : Nat :=
  match bs with
  | [b0, b1] => b0 + 256 * b1
  | _ => 0

/-- `PCMToWAV` (AudioModule.swift lines 130-159): synthesize a 44-byte WAV
header around the PCM payload.  The Swift source computes the size fields
in `UInt32` arithmetic, converting `pcmData.count` with `UInt32(_)`, which
traps when the value exceeds the 32-bit range; `none` models that trap.
Field values follow the source: `byteRate = sampleRate * numChannels *
(bitsPerSample / 8)`, `blockAlign = numChannels * bitsPerSample / 8`,
`wavDataSize = pcmDataSize + 44`, RIFF size field `wavDataSize - 8`. -/
def PCMToWAV (pcmData : List Nat) : Option (List Nat) :=
  let sampleRate := 44100
  let numChannels := 1
  let bitsPerSample := 16
  let byteRate := sampleRate * numChannels * (bitsPerSample / 8)
  let blockAlign := numChannels * bitsPerSample / 8
  let wavHeaderSize := 44
  let pcmDataSize := pcmData.length
  let wavDataSize := pcmDataSize + wavHeaderSize
  if wavDataSize < 4294967296 then
    some (asciiBytes "RIFF" ++ littleEndianData32 (wavDataSize - 8) ++
      asciiBytes "WAVE" ++ asciiBytes "fmt " ++ littleEndianData32 16 ++
      littleEndianData16 1 ++ littleEndianData16 numChannels ++
      littleEndianData32 sampleRate ++ littleEndianData32 byteRate ++
      littleEndianData16 blockAlign ++ littleEndianData16 bitsPerSample ++
      asciiBytes "data" ++ littleEndianData32 pcmDataSize ++ pcmData)
  else none

/-- An `AVAudioPlayer` instance: the WAV data it was created over and
whether `play()` has been called and not stopped. -/
structure Player where
  wavData : List Nat
  playing : Bool
deriving DecidableEq, Repr

/-- Mutable fields of the iOS `AudioModule` class (AudioModule.swift lines
6-8). -/
structure IState where
  audioRecorder : Option Unit
  audioPlayer : Option Player
deriving DecidableEq, Repr

/-- `generateRecordingURL` (AudioModule.swift lines 17-21): a file named
`recording_<timestamp>.pcm` in the Documents directory, timestamp in whole
seconds since the epoch (`Int(Date().timeIntervalSince1970)`). -/
def generateRecordingURL (nowSeconds : Nat) : StorageDir × String :=
  (StorageDir.documents, "recording_" ++ Nat.repr nowSeconds ++ ".pcm")

/-- `playRecording` (AudioModule.swift lines 88-107).  The filesystem is a
map from file name to PCM byte content; a missing file makes
`Data(contentsOf:)` throw, which is rejected.  Otherwise the PCM data is
wrapped into WAV, written to a temp file, and a fresh `AVAudioPlayer` is
assigned to `audioPlayer` and played — there is no already-playing guard:
whatever player was live before is simply replaced. -/
def playRecording (fs : String → Option (List Nat)) (fileName : String) (st : IState) :
    PResult Bool × IState :=
  match fs fileName with
  | none => (.reject "playback_error" "Failed to play recording", st)
  | some pcm =>
    match PCMToWAV pcm with
    | none => (.reject "playback_error" "Failed to convert PCM to WAV", st)
    | some wav => (.resolve true, { st with audioPlayer := some { wavData := wav, playing := true } })

/-- `stopPlayback` (AudioModule.swift lines 110-117): stop the player if
one is live, resolving `stopped = true`; otherwise resolve
`stopped = false`. -/
def stopPlayback (st : IState) : PResult Bool × IState :=
  match st.audioPlayer with
  | some p =>
    if p.playing then
      (.resolve true, { st with audioPlayer := some { p with playing := false } })
    else (.resolve false, st)
  | none => (.resolve false, st)

/-- The extension of a path (the component after the last dot; empty when
there is no dot), modelling `URL.pathExtension` for the plain file names at
hand. -/
def pathExtension (s : String) : String :=
  match (s.splitOn ".").reverse with
  | [] => ""
  | [_] => ""
  | ext :: _ => ext

/-- `getRecordings` (AudioModule.swift lines 74-85).  The directory listing
is `none` when `contentsOfDirectory` throws (for instance because the
directory is missing), in which case the call is rejected with
`file_error`; otherwise the names with extension `pcm` starting with
`recording_` are sorted descending and resolved. -/
def getRecordings (dirListing : Option (List String)) : PResult (List String) :=
  match dirListing with
  | none => .reject "file_error" "Could not list recordings"
  | some names =>
    .resolve (Android.sortDesc
      (names.filter fun n => pathExtension n == "pcm" && Android.kotlinStartsWith n "recording_"))

end Ios

namespace IosTemp

/-- File placement of `startRecording` in the second iOS variant
(`src/unnamed/part_002`, lines 20-23): a file named
`audio_<UUID>.pcm` in `NSTemporaryDirectory()`. -/
def recordingFile (uuid : String) : StorageDir × String :=
  (StorageDir.temporary, "audio_" ++ uuid ++ ".pcm")

end IosTemp

/-! Helper lemmas about the sorting model. -/

theorem insertDesc_perm (x : String) (l : List String) :
    (Android.insertDesc x l).Perm (x :: l) := by
  induction l with
  | nil => simp [Android.insertDesc]
  | cons y ys ih =>
    rw [Android.insertDesc]
    by_cases h : y ≤ x
    · simp [h]
    · simp only [if_neg h]
      exact (ih.cons y).trans (List.Perm.swap x y ys)

theorem insertDesc_mem {z x : String} {l : List String} :
    z ∈ Android.insertDesc x l ↔ z = x ∨ z ∈ l := by
  rw [(insertDesc_perm x l).mem_iff, List.mem_cons]

theorem insertDesc_pairwise {x : String} {l : List String}
    (h : l.Pairwise (fun a b => b ≤ a)) :
    (Android.insertDesc x l).Pairwise (fun a b => b ≤ a) := by
  induction l with
  | nil => simp [Android.insertDesc]
  | cons y ys ih =>
    rw [List.pairwise_cons] at h
    obtain ⟨hy, hys⟩ := h
    rw [Android.insertDesc]
    by_cases hyx : y ≤ x
    · rw [if_pos hyx, List.pairwise_cons]
      refine ⟨?_, List.pairwise_cons.mpr ⟨hy, hys⟩⟩
      intro z hz
      rcases List.mem_cons.mp hz with rfl | hz
      · exact hyx
      · exact le_trans (hy z hz) hyx
    · rw [if_neg hyx, List.pairwise_cons]
      refine ⟨?_, ih hys⟩
      intro z hz
      rcases insertDesc_mem.mp hz with rfl | hz
      · exact le_of_lt (lt_of_not_le hyx)
      · exact hy z hz

theorem sortDesc_perm (l : List String) : (Android.sortDesc l).Perm l := by
  induction l with
  | nil => simp [Android.sortDesc]
  | cons x xs ih =>
    exact (insertDesc_perm x (Android.sortDesc xs)).trans (ih.cons x)

theorem sortDesc_pairwise (l : List String) :
    (Android.sortDesc l).Pairwise (fun a b => b ≤ a) := by
  induction l with
  | nil => simp [Android.sortDesc]
  | cons x xs ih => exact insertDesc_pairwise ih

/-! Helper lemmas about the render loop. -/

theorem toInt32_eq_self (m : Int) (h1 : -2147483648 ≤ m) (h2 : m < 2147483648) :
    Android.toInt32 m = m := by
  unfold Android.toInt32
  omega

theorem renderLoopAux_mem_bound (b : Nat) :
    ∀ (f r : Nat) (bw : Int), 0 ≤ bw → bw + r < 2147483648 →
      ∀ x ∈ Android.renderLoopAux b f r bw, 0 ≤ x ∧ x ≤ bw + r := by
  intro f
  induction f with
  | zero => intro r bw _ _ x hx; simp [Android.renderLoopAux] at hx
  | succ f ih =>
    intro r bw hbw hno x hx
    rw [Android.renderLoopAux] at hx
    by_cases h : r = 0 ∨ b = 0
    · simp [h] at hx
    · rw [if_neg h] at hx
      have h2 : min b r ≤ r := Nat.min_le_right b r
      have hid : Android.toInt32 (bw + (min b r : Nat)) = bw + (min b r : Nat) := by
        apply toInt32_eq_self <;> omega
      rw [hid] at hx
      rcases List.mem_cons.mp hx with rfl | hx
      · constructor <;> omega
      · have := ih (r - min b r) (bw + (min b r : Nat)) (by omega) (by omega) x hx
        omega

theorem renderLoopAux_getLastD (b : Nat) (hb : 0 < b) :
    ∀ (f r : Nat) (bw : Int), r ≤ f → 0 ≤ bw → bw + r < 2147483648 →
      (Android.renderLoopAux b f r bw).getLastD bw = bw + r := by
  intro f
  induction f with
  | zero =>
    intro r bw hr _ _
    have : r = 0 := by omega
    subst this
    simp [Android.renderLoopAux]
  | succ f ih =>
    intro r bw hr hbw hno
    by_cases h0 : r = 0
    · subst h0; simp [Android.renderLoopAux]
    · have hcond : ¬(r = 0 ∨ b = 0) := by omega
      rw [Android.renderLoopAux, if_neg hcond, List.getLastD_cons]
      have h1 : 1 ≤ min b r := le_min hb (Nat.one_le_iff_ne_zero.mpr h0)
      have h2 : min b r ≤ r := Nat.min_le_right b r
      have hid : Android.toInt32 (bw + (min b r : Nat)) = bw + (min b r : Nat) := by
        apply toInt32_eq_self <;> omega
      rw [hid, ih (r - min b r) (bw + (min b r : Nat)) (by omega) (by omega) (by omega)]
      omega

theorem renderFinal_eq (b n : Nat) (hb : 0 < b) (hn : (n : Int) < 2147483648) :
    Android.renderFinal b n = (n : Int) := by
  have := renderLoopAux_getLastD b hb n n 0 (le_refl n) (le_refl 0) (by omega)
  simpa [Android.renderFinal, Android.renderLoop] using this

/-! Helper lemmas about the capture loop. -/

theorem captureFileSizes_even :
    ∀ (steps : List Android.CaptureStep) (n : Nat), 2 ∣ n →
      (∀ s ∈ steps, 2 ∣ s.read) →
      ∀ m ∈ Android.captureFileSizes steps n, 2 ∣ m := by
  intro steps
  induction steps with
  | nil => intro n _ _ m hm; simp [Android.captureFileSizes] at hm
  | cons s rest ih =>
    intro n hn hall m hm
    rw [Android.captureFileSizes] at hm
    have hs : 2 ∣ s.read := hall s (by simp)
    have hrest : ∀ t ∈ rest, 2 ∣ t.read := fun t ht => hall t (by simp [ht])
    by_cases h : 0 < s.read
    · rw [if_pos h] at hm
      by_cases he : s.writeErr
      · simp [he] at hm; omega
      · simp only [he, if_false, Bool.false_eq_true] at hm
        rcases List.mem_cons.mp hm with rfl | hm
        · omega
        · exact ih (n + s.read) (by omega) hrest m hm
    · rw [if_neg h] at hm
      rcases List.mem_cons.mp hm with rfl | hm
      · exact hn
      · exact ih n hn hrest m hm

theorem captureFileSizes_chain :
    ∀ (steps : List Android.CaptureStep) (n : Nat),
      List.Chain' (· ≤ ·) (n :: Android.captureFileSizes steps n) := by
  intro steps
  induction steps with
  | nil => intro n; simp [Android.captureFileSizes]
  | cons s rest ih =>
    intro n
    rw [Android.captureFileSizes]
    by_cases h : 0 < s.read
    · rw [if_pos h]
      by_cases he : s.writeErr
      · simp [he]
      · simp only [he, if_false, Bool.false_eq_true]
        exact List.chain'_cons.mpr ⟨by omega, ih (n + s.read)⟩
    · rw [if_neg h]
      exact List.chain'_cons.mpr ⟨le_refl n, ih n⟩


/-! Helper lemmas about the WAV header encoding. -/

theorem deLE32_littleEndianData32 (n : Nat) (h : n < 4294967296) :
    Ios.deLE32 (Ios.littleEndianData32 n) = n := by
  simp only [Ios.deLE32, Ios.littleEndianData32]
  omega

theorem deLE16_littleEndianData16 (n : Nat) (h : n < 65536) :
    Ios.deLE16 (Ios.littleEndianData16 n) = n := by
  simp only [Ios.deLE16, Ios.littleEndianData16]
  omega

theorem PCMToWAV_eq (p : List Nat) (h : p.length + 44 < 4294967296) :
    Ios.PCMToWAV p = some (Ios.asciiBytes "RIFF" ++
      Ios.littleEndianData32 (p.length + 36) ++ Ios.asciiBytes "WAVE" ++
      Ios.asciiBytes "fmt " ++ Ios.littleEndianData32 16 ++
      Ios.littleEndianData16 1 ++ Ios.littleEndianData16 1 ++
      Ios.littleEndianData32 44100 ++ Ios.littleEndianData32 88200 ++
      Ios.littleEndianData16 2 ++ Ios.littleEndianData16 16 ++
      Ios.asciiBytes "data" ++ Ios.littleEndianData32 p.length ++ p) := by
  rw [Ios.PCMToWAV]
  rw [if_pos h]
  norm_num
  congr 1

/-! Claim C1. -/

/-- A live iOS playback session: a player exists and is playing. -/
def c1LiveState : Ios.IState :=
  { audioRecorder := none
    audioPlayer := some { wavData := [], playing := true } }

/-- A filesystem holding one two-byte recording, used to exercise the iOS
playback start while a session is live. -/
def c1Fs : String → Option (List Nat) :=
  fun n => if n = "recording_1.pcm" then some [0, 0] else none

/-- Claim C1 counterexample: with an iOS playback session live
(`c1LiveState`), a new `playRecording` request on an existing file is not
rejected with AlreadyActive — it resolves successfully and replaces the
running session's player, so a state transition does occur. -/
theorem c1_counterexample :
    (Ios.playRecording c1Fs "recording_1.pcm" c1LiveState).1 = PResult.resolve true ∧
    (Ios.playRecording c1Fs "recording_1.pcm" c1LiveState).2 ≠ c1LiveState := by
  constructor
  · decide
  · decide

/-- Claim C1 (amended): in the Android module, a start request while a
session of the same kind is live is rejected with AlreadyActive
(`record_error "Already recording"` / `playback_error "Already playing"`)
and causes no state transition at all — run flags, handles, counters and
file path of the running session are untouched; the iOS module's playback
start carries no such guard. -/
theorem c1_amended (env : Android.RecEnv) (st st2 : Android.AState)
    (fs : String → Option Nat) (fileName : String)
    (h1 : st.isRecording = true) (h2 : st2.isPlaying = true) :
    Android.startRecording env st = (.reject "record_error" "Already recording", st) ∧
    Android.playRecording fs fileName st2 = (.reject "playback_error" "Already playing", st2) := by
  constructor
  · rw [Android.startRecording, if_pos h1]
  · rw [Android.playRecording, if_pos h2]

/-- Claim C1 witness: the amended theorem applied to concrete live
states. -/
theorem c1_witness :
    ({ Android.initState with isRecording := true } : Android.AState).isRecording = true ∧
    ({ Android.initState with isPlaying := true } : Android.AState).isPlaying = true ∧
    (Android.startRecording ⟨true, true, true, true, 0⟩
        { Android.initState with isRecording := true } =
      (.reject "record_error" "Already recording",
        { Android.initState with isRecording := true }) ∧
     Android.playRecording (fun _ => none) "recording_1.pcm"
        { Android.initState with isPlaying := true } =
      (.reject "playback_error" "Already playing",
        { Android.initState with isPlaying := true })) :=
  ⟨rfl, rfl,
   c1_amended ⟨true, true, true, true, 0⟩ _ _ (fun _ => none) "recording_1.pcm" rfl rfl⟩

/-! Claim C2. -/

/-- Claim C2 counterexample: on an idle module, `stopPlayback` is not
rejected with NotActive — it resolves successfully with `stopped = false`
(while indeed performing no state mutation). -/
theorem c2_counterexample :
    (Android.stopPlayback Android.initState).1 = PResult.resolve false ∧
    (Android.stopPlayback Android.initState).2.1 = Android.initState := by
  constructor
  · decide
  · decide

/-- Claim C2 (amended): on an idle module, `stopRecording` is rejected with
NotActive (`not_recording`) and mutates nothing, while `stopPlayback`
resolves successfully with `stopped = false` and likewise mutates nothing:
run flags, handles, counters and the saved file path are unchanged after
either call. -/
theorem c2_amended (st st2 : Android.AState)
    (h1 : st.isRecording = false) (h2 : st2.isPlaying = false) :
    Android.stopRecording st =
      (.reject "not_recording" "No active recording to stop", st, []) ∧
    Android.stopPlayback st2 = (.resolve false, st2, []) := by
  constructor
  · simp [Android.stopRecording, h1]
  · simp [Android.stopPlayback, h2]

/-- Claim C2 witness: the amended theorem applied to the idle initial
state. -/
theorem c2_witness :
    Android.initState.isRecording = false ∧ Android.initState.isPlaying = false ∧
    (Android.stopRecording Android.initState =
      (.reject "not_recording" "No active recording to stop", Android.initState, []) ∧
     Android.stopPlayback Android.initState = (.resolve false, Android.initState, [])) :=
  ⟨rfl, rfl, c2_amended Android.initState Android.initState rfl rfl⟩

/-! Claim C3. -/

/-- Three capture iterations: a good 4-byte chunk, a 4-byte chunk whose
write raises an I/O error, and another good 4-byte chunk read while the run
flag is still set. -/
def c3Steps : List Android.CaptureStep :=
  [{ read := 4, writeErr := false }, { read := 4, writeErr := true },
   { read := 4, writeErr := false }]

/-- Claim C3 counterexample: on `c3Steps` the capture loop of the code
stops at the failing chunk with only 4 bytes on disk (the try/catch wraps
the whole loop), whereas the spec's drop-that-chunk-and-continue loop would
write 8 bytes and keep running; the two behaviours differ. -/
theorem c3_counterexample :
    Android.writeAudioDataToFile c3Steps 0 = (4, true) ∧
    specWriteLoop c3Steps 0 = (8, false) ∧
    Android.writeAudioDataToFile c3Steps 0 ≠ specWriteLoop c3Steps 0 := by
  refine ⟨by decide, by decide, by decide⟩

/-- Claim C3 (amended): if writing one chunk to the destination file raises
an I/O error, the capture loop logs the error and terminates: the file
keeps exactly the bytes of the successfully written chunks before the
error, and the errored chunk and every subsequent chunk are dropped no
matter how long the run flag stays set. -/
theorem c3_amended (pre post : List Android.CaptureStep) (e : Android.CaptureStep) (n : Nat)
    (hpre : ∀ s ∈ pre, s.writeErr = false) (he : 0 < e.read) (herr : e.writeErr = true) :
    Android.writeAudioDataToFile (pre ++ e :: post) n =
      (n + (pre.map Android.CaptureStep.read).sum, true) := by
  induction pre generalizing n with
  | nil =>
    simp [Android.writeAudioDataToFile, he, herr]
  | cons s rest ih =>
    have hs : s.writeErr = false := hpre s (by simp)
    have hrest : ∀ t ∈ rest, t.writeErr = false := fun t ht => hpre t (by simp [ht])
    rw [List.cons_append, Android.writeAudioDataToFile]
    by_cases h : 0 < s.read
    · rw [if_pos h, hs]
      simp only [Bool.false_eq_true, if_false]
      rw [ih _ hrest]
      simp [List.sum_cons]
      omega
    · rw [if_neg h, ih _ hrest]
      have : s.read = 0 := by omega
      simp [this]

/-- Claim C3 witness: the amended theorem applied to a concrete trace with
one good chunk, then an erroring chunk, then a further chunk. -/
theorem c3_witness :
    (∀ s ∈ [({ read := 4, writeErr := false } : Android.CaptureStep)], s.writeErr = false) ∧
    (0 < (({ read := 2, writeErr := true } : Android.CaptureStep)).read) ∧
    Android.writeAudioDataToFile
      ([{ read := 4, writeErr := false }] ++
        ({ read := 2, writeErr := true } : Android.CaptureStep) ::
          [{ read := 6, writeErr := false }]) 0 =
      (0 + ([({ read := 4, writeErr := false } : Android.CaptureStep)].map
        Android.CaptureStep.read).sum, true) :=
  ⟨by decide, by decide,
   c3_amended [{ read := 4, writeErr := false }] [{ read := 6, writeErr := false }]
     { read := 2, writeErr := true } 0 (by decide) (by decide) rfl⟩

/-! Claim C4. -/

/-- A filesystem holding one 4-byte recording, used to drive a playback to
its natural end-of-file. -/
def c4Fs : String → Option Nat :=
  fun n => if n = "recording_1.pcm" then some 4 else none

/-- The module state after starting playback of the 4-byte recording from
the initial state and letting the render thread run to end-of-file. -/
def c4Final : Android.AState :=
  Android.playbackThreadToEOF 2 4
    (Android.playRecording c4Fs "recording_1.pcm" Android.initState).2

/-- Claim C4 counterexample: after the render loop reaches end-of-file it
has self-terminated (run flag cleared, `AudioTrack` and input stream
released), but a `getPlaybackStatus` call then does not report the
playback session as absent: it returns exactly the same progress report as
a live session sitting at the same counters, and a report different from
the one of the session-free initial state (whose counters are zero). -/
theorem c4_counterexample :
    c4Final.isPlaying = false ∧ c4Final.audioTrack = none ∧
    c4Final.playbackFileOpen = false ∧
    (Android.activePlaybackState 4 4).isPlaying = true ∧
    Android.getPlaybackStatus c4Final =
      Android.getPlaybackStatus (Android.activePlaybackState 4 4) ∧
    Android.getPlaybackStatus c4Final ≠ Android.getPlaybackStatus Android.initState := by
  refine ⟨by decide, by decide, by decide, by decide, rfl, ?_⟩
  intro h
  have hp : ((4 : Int) : ℚ) / (44100 * 2 * 1) = ((0 : Int) : ℚ) / (44100 * 2 * 1) :=
    congrArg Android.PlaybackStatus.position h
  norm_num at hp

/-- Claim C4 (amended): when a playback session on a file of fewer than
`2^31` bytes (so that neither `file.length().toInt()` nor the wrapping
`Int` accumulation overflows) reaches end-of-file, the render loop
self-terminates — it clears the run flag and releases the output device
handle and source file handle without any stop call — but a
`queryPlaybackProgress` call made after that termination does not report
the session as absent: the counters are left in place, so it reports
`position = duration = totalBytes / 88200`, indistinguishable from the
report of a live session at the same counters (the UI infers completion
from `position ≥ duration`). -/
theorem c4_amended (b n : Nat) (hb : 0 < b) (hn : (n : Int) < 2147483648)
    (fs : String → Option Nat) (fileName : String) (hfs : fs fileName = some n) :
    (Android.playRecording fs fileName Android.initState).1 = PResult.resolve true ∧
    (Android.playbackThreadToEOF b n
        (Android.playRecording fs fileName Android.initState).2).isPlaying = false ∧
    (Android.playbackThreadToEOF b n
        (Android.playRecording fs fileName Android.initState).2).audioTrack = none ∧
    (Android.playbackThreadToEOF b n
        (Android.playRecording fs fileName Android.initState).2).playbackFileOpen = false ∧
    (Android.playbackThreadToEOF b n
        (Android.playRecording fs fileName Android.initState).2).playbackThread = none ∧
    Android.getPlaybackStatus
        (Android.playbackThreadToEOF b n
          (Android.playRecording fs fileName Android.initState).2) =
      { position := (n : ℚ) / (44100 * 2 * 1), duration := (n : ℚ) / (44100 * 2 * 1) } ∧
    Android.getPlaybackStatus
        (Android.playbackThreadToEOF b n
          (Android.playRecording fs fileName Android.initState).2) =
      Android.getPlaybackStatus (Android.activePlaybackState (n : Int) (n : Int)) := by
  have htot : Android.toInt32 (n : Int) = (n : Int) :=
    toInt32_eq_self _ (by omega) hn
  have hfinal : (Android.renderLoopAux b n n 0).getLastD 0 = (n : Int) := by
    have := renderLoopAux_getLastD b hb n n 0 (le_refl n) (le_refl 0) (by omega)
    simpa using this
  have hfinal2 : (Android.renderLoopAux b n n 0).getLast?.getD 0 = (n : Int) := by
    simpa [List.getLastD_eq_getLast?] using hfinal
  refine ⟨?_, ?_, ?_, ?_, ?_, ?_, ?_⟩ <;>
    simp [Android.playRecording, hfs, Android.playbackThreadToEOF, Android.initState,
      Android.getPlaybackStatus, Android.activePlaybackState, hfinal, hfinal2, htot]

/-- Claim C4 witness: the amended theorem applied to the concrete 4-byte
playback with buffer size 2. -/
theorem c4_witness :
    0 < 2 ∧ ((4 : Nat) : Int) < 2147483648 ∧ c4Fs "recording_1.pcm" = some 4 ∧
    ((Android.playRecording c4Fs "recording_1.pcm" Android.initState).1 =
        PResult.resolve true ∧
     (Android.playbackThreadToEOF 2 4
        (Android.playRecording c4Fs "recording_1.pcm" Android.initState).2).isPlaying = false ∧
     (Android.playbackThreadToEOF 2 4
        (Android.playRecording c4Fs "recording_1.pcm" Android.initState).2).audioTrack = none ∧
     (Android.playbackThreadToEOF 2 4
        (Android.playRecording c4Fs "recording_1.pcm" Android.initState).2).playbackFileOpen = false ∧
     (Android.playbackThreadToEOF 2 4
        (Android.playRecording c4Fs "recording_1.pcm" Android.initState).2).playbackThread = none ∧
     Android.getPlaybackStatus
        (Android.playbackThreadToEOF 2 4
          (Android.playRecording c4Fs "recording_1.pcm" Android.initState).2) =
       { position := ((4 : Nat) : ℚ) / (44100 * 2 * 1),
         duration := ((4 : Nat) : ℚ) / (44100 * 2 * 1) } ∧
     Android.getPlaybackStatus
        (Android.playbackThreadToEOF 2 4
          (Android.playRecording c4Fs "recording_1.pcm" Android.initState).2) =
       Android.getPlaybackStatus
         (Android.activePlaybackState ((4 : Nat) : Int) ((4 : Nat) : Int))) := by
  refine ⟨by decide, by decide, by decide, ?_⟩
  have h := c4_amended 2 4 (by decide) (by decide) c4Fs "recording_1.pcm" (by decide)
  simpa using h

/-! Claim C5. -/

/-- Claim C5: a successful stop of a live capture (respectively playback)
session first clears the run flag, then joins the background streaming
task, and only then returns; the device handle and file handle are
released — the handle references absent and the stream closed — before the
call returns (the file handle by the background task as its loop exits,
which the join waits for). -/
theorem c5_theorem (st st2 : Android.AState)
    (h1 : st.isRecording = true) (h2 : st2.isPlaying = true) :
    (∃ st' evs, Android.stopRecording st = (.resolve st.filePath, st', evs) ∧
      st'.isRecording = false ∧ st'.audioRecord = none ∧
      st'.recordingThread = none ∧ st'.fileOpen = false ∧
      evBefore Ev.clearRunFlag Ev.joinTask evs ∧
      evBefore Ev.fileClosed Ev.joinTask evs ∧
      evBefore Ev.joinTask Ev.deviceReleased evs ∧
      Ev.joinTask ∈ evs ∧ Ev.deviceReleased ∈ evs ∧ Ev.fileClosed ∈ evs) ∧
    (∃ st2' evs2, Android.stopPlayback st2 = (.resolve true, st2', evs2) ∧
      st2'.isPlaying = false ∧ st2'.audioTrack = none ∧
      st2'.playbackThread = none ∧ st2'.playbackFileOpen = false ∧
      evBefore Ev.clearRunFlag Ev.joinTask evs2 ∧
      evBefore Ev.clearRunFlag Ev.deviceReleased evs2 ∧
      evBefore Ev.deviceReleased Ev.joinTask evs2 ∧
      Ev.joinTask ∈ evs2 ∧ Ev.deviceReleased ∈ evs2 ∧ Ev.fileClosed ∈ evs2) := by
  constructor
  · have heq : Android.stopRecording st =
        (.resolve st.filePath,
         { st with isRecording := false, recordingThread := none,
                   fileOpen := false, audioRecord := none },
         [Ev.clearRunFlag, Ev.fileClosed, Ev.joinTask, Ev.deviceStopped,
          Ev.deviceReleased]) := by
      rw [Android.stopRecording, if_neg (by simp [h1])]
    exact ⟨_, _, heq, rfl, rfl, rfl, rfl,
      ⟨0, 2, by omega, rfl, rfl⟩, ⟨1, 2, by omega, rfl, rfl⟩,
      ⟨2, 4, by omega, rfl, rfl⟩, by simp, by simp, by simp⟩
  · have heq : Android.stopPlayback st2 =
        (.resolve true,
         { st2 with isPlaying := false, audioTrack := none,
                    playbackThread := none, playbackFileOpen := false },
         [Ev.clearRunFlag, Ev.deviceStopped, Ev.deviceReleased, Ev.fileClosed,
          Ev.joinTask]) := by
      rw [Android.stopPlayback, if_pos h2]
    exact ⟨_, _, heq, rfl, rfl, rfl, rfl,
      ⟨0, 4, by omega, rfl, rfl⟩, ⟨0, 2, by omega, rfl, rfl⟩,
      ⟨2, 4, by omega, rfl, rfl⟩, by simp, by simp, by simp⟩

/-- Claim C5 witness: the theorem applied to concrete live capture and
playback states. -/
theorem c5_witness :
    (Android.activePlaybackState 0 4).isPlaying = true ∧
    ({ Android.initState with isRecording := true } : Android.AState).isRecording = true ∧
    ((∃ st' evs, Android.stopRecording { Android.initState with isRecording := true } =
        (.resolve ({ Android.initState with isRecording := true } : Android.AState).filePath,
          st', evs) ∧
      st'.isRecording = false ∧ st'.audioRecord = none ∧
      st'.recordingThread = none ∧ st'.fileOpen = false ∧
      evBefore Ev.clearRunFlag Ev.joinTask evs ∧
      evBefore Ev.fileClosed Ev.joinTask evs ∧
      evBefore Ev.joinTask Ev.deviceReleased evs ∧
      Ev.joinTask ∈ evs ∧ Ev.deviceReleased ∈ evs ∧ Ev.fileClosed ∈ evs) ∧
    (∃ st2' evs2, Android.stopPlayback (Android.activePlaybackState 0 4) =
        (.resolve true, st2', evs2) ∧
      st2'.isPlaying = false ∧ st2'.audioTrack = none ∧
      st2'.playbackThread = none ∧ st2'.playbackFileOpen = false ∧
      evBefore Ev.clearRunFlag Ev.joinTask evs2 ∧
      evBefore Ev.clearRunFlag Ev.deviceReleased evs2 ∧
      evBefore Ev.deviceReleased Ev.joinTask evs2 ∧
      Ev.joinTask ∈ evs2 ∧ Ev.deviceReleased ∈ evs2 ∧ Ev.fileClosed ∈ evs2)) :=
  ⟨rfl, rfl, c5_theorem { Android.initState with isRecording := true }
    (Android.activePlaybackState 0 4) rfl rfl⟩

/-! Claim C6. -/

/-- A filesystem holding one recording of exactly `2^31` bytes (about 6.8
hours of 88200-byte-per-second PCM), at which `file.length().toInt()`
wraps to `-2^31`. -/
def c6Fs : String → Option Nat :=
  fun s => if s = "recording_big.pcm" then some 2147483648 else none

/-- The live playback session obtained by starting playback of the
`2^31`-byte recording from the initial state. -/
def c6Live : Android.AState :=
  (Android.playRecording c6Fs "recording_big.pcm" Android.initState).2

/-- Claim C6 counterexample: starting playback of a `2^31`-byte file
succeeds, but `playbackTotalBytes = file.length().toInt()` wraps to
`-2^31`, so `getPlaybackStatus` on the live session reports a negative
duration and the claimed invariant `0 ≤ position ≤ duration` is already
false at the session's first instant (`position = 0`). -/
theorem c6_counterexample :
    (Android.playRecording c6Fs "recording_big.pcm" Android.initState).1 =
      PResult.resolve true ∧
    c6Live.isPlaying = true ∧
    c6Live.playbackTotalBytes = -2147483648 ∧
    (Android.getPlaybackStatus c6Live).duration < 0 ∧
    ¬ (0 ≤ (Android.getPlaybackStatus c6Live).position ∧
       (Android.getPlaybackStatus c6Live).position ≤
         (Android.getPlaybackStatus c6Live).duration) := by
  have htot : c6Live.playbackTotalBytes = -2147483648 := by decide
  have hbw : c6Live.playbackBytesWritten = 0 := by decide
  have hdur : (Android.getPlaybackStatus c6Live).duration =
      ((-2147483648 : Int) : ℚ) / (44100 * 2 * 1) := by
    simp only [Android.getPlaybackStatus, htot]
  have hpos : (Android.getPlaybackStatus c6Live).position =
      ((0 : Int) : ℚ) / (44100 * 2 * 1) := by
    simp only [Android.getPlaybackStatus, hbw]
  refine ⟨by decide, by decide, htot, ?_, ?_⟩
  · rw [hdur]; norm_num
  · rw [hpos, hdur]
    intro hcontra
    have := hcontra.2
    norm_num at this

/-- Claim C6 (amended): `getPlaybackStatus` reports
`position = playbackBytesWritten / (44100 * 2 * 1)` seconds and
`duration = playbackTotalBytes / (44100 * 2 * 1)` seconds; for a source
file of fewer than `2^31` bytes (so that neither the
`file.length().toInt()` truncation nor the wrapping `Int` accumulation
overflows), every intermediate bytes-written value of the render loop
(including the initial 0) satisfies `0 ≤ position ≤ duration`, and at
natural end-of-stream the final bytes-written value makes position equal
to duration.  For larger files the stored total wraps negative and the
invariant fails (see the counterexample). -/
theorem c6_amended (n b : Nat) (hb : 0 < b) (hn : (n : Int) < 2147483648) :
    (∀ bw ∈ (0 : Int) :: Android.renderLoop b n,
      Android.getPlaybackStatus
          (Android.activePlaybackState bw (Android.toInt32 (n : Int))) =
        { position := (bw : ℚ) / (44100 * 2 * 1),
          duration := (n : ℚ) / (44100 * 2 * 1) } ∧
      0 ≤ (Android.getPlaybackStatus
          (Android.activePlaybackState bw (Android.toInt32 (n : Int)))).position ∧
      (Android.getPlaybackStatus
          (Android.activePlaybackState bw (Android.toInt32 (n : Int)))).position ≤
        (Android.getPlaybackStatus
          (Android.activePlaybackState bw (Android.toInt32 (n : Int)))).duration) ∧
    (Android.getPlaybackStatus
        (Android.activePlaybackState (Android.renderFinal b n)
          (Android.toInt32 (n : Int)))).position =
      (Android.getPlaybackStatus
        (Android.activePlaybackState (Android.renderFinal b n)
          (Android.toInt32 (n : Int)))).duration := by
  have htot : Android.toInt32 (n : Int) = (n : Int) :=
    toInt32_eq_self _ (by omega) hn
  constructor
  · intro bw hbw
    have hb2 : 0 ≤ bw ∧ bw ≤ (n : Int) := by
      rcases List.mem_cons.mp hbw with rfl | hbw
      · exact ⟨le_refl 0, by omega⟩
      · have := renderLoopAux_mem_bound b n n 0 (le_refl 0) (by omega) bw hbw
        omega
    refine ⟨?_, ?_, ?_⟩
    · simp [Android.getPlaybackStatus, Android.activePlaybackState, htot]
    · simp only [Android.getPlaybackStatus, Android.activePlaybackState]
      exact div_nonneg (by exact_mod_cast hb2.1) (by norm_num)
    · simp only [Android.getPlaybackStatus, Android.activePlaybackState, htot]
      gcongr
      exact_mod_cast hb2.2
  · rw [renderFinal_eq b n hb hn]
    simp [Android.getPlaybackStatus, Android.activePlaybackState, htot]

/-- Claim C6 witness: the amended theorem applied to a 5-byte file with
buffer size 2. -/
theorem c6_witness :
    0 < 2 ∧ ((5 : Nat) : Int) < 2147483648 ∧
    (Android.getPlaybackStatus
        (Android.activePlaybackState (Android.renderFinal 2 5)
          (Android.toInt32 ((5 : Nat) : Int)))).position =
      (Android.getPlaybackStatus
        (Android.activePlaybackState (Android.renderFinal 2 5)
          (Android.toInt32 ((5 : Nat) : Int)))).duration := by
  refine ⟨by decide, by decide, ?_⟩
  exact (c6_amended 5 2 (by decide) (by decide)).2

/-! Claim C7. -/

theorem asciiBytes_RIFF : Ios.asciiBytes "RIFF" = [82, 73, 70, 70] := by decide

theorem asciiBytes_WAVE : Ios.asciiBytes "WAVE" = [87, 65, 86, 69] := by decide

theorem asciiBytes_fmt : Ios.asciiBytes "fmt " = [102, 109, 116, 32] := by decide

theorem asciiBytes_data : Ios.asciiBytes "data" = [100, 97, 116, 97] := by decide

/-- Claim C7: for a PCM payload within the 32-bit size range (beyond it
the Swift `UInt32` conversion traps), `PCMToWAV` returns `|p| + 44` bytes:
the first 44 bytes are a canonical little-endian WAV header — ASCII
`RIFF`, RIFF chunk size `|p| + 36`, `WAVE`, an `fmt ` subchunk of size 16
declaring PCM format 1, 1 channel, sample rate 44100, byte rate 88200,
block align 2 and 16 bits per sample, then `data` with data size `|p|` —
followed by the payload unmodified (the trailing conjuncts decode each
little-endian field back to its claimed value). -/
theorem c7_theorem (p : List Nat) (h : p.length + 44 < 4294967296) :
    ∃ w, Ios.PCMToWAV p = some w ∧
      w.length = p.length + 44 ∧
      w.take 44 =
        Ios.asciiBytes "RIFF" ++ Ios.littleEndianData32 (p.length + 36) ++
        Ios.asciiBytes "WAVE" ++ Ios.asciiBytes "fmt " ++
        Ios.littleEndianData32 16 ++ Ios.littleEndianData16 1 ++
        Ios.littleEndianData16 1 ++ Ios.littleEndianData32 44100 ++
        Ios.littleEndianData32 88200 ++ Ios.littleEndianData16 2 ++
        Ios.littleEndianData16 16 ++ Ios.asciiBytes "data" ++
        Ios.littleEndianData32 p.length ∧
      w.drop 44 = p ∧
      Ios.asciiBytes "RIFF" = [82, 73, 70, 70] ∧
      Ios.asciiBytes "WAVE" = [87, 65, 86, 69] ∧
      Ios.asciiBytes "fmt " = [102, 109, 116, 32] ∧
      Ios.asciiBytes "data" = [100, 97, 116, 97] ∧
      Ios.deLE32 (Ios.littleEndianData32 (p.length + 36)) = p.length + 36 ∧
      Ios.deLE32 (Ios.littleEndianData32 16) = 16 ∧
      Ios.deLE16 (Ios.littleEndianData16 1) = 1 ∧
      Ios.deLE32 (Ios.littleEndianData32 44100) = 44100 ∧
      Ios.deLE32 (Ios.littleEndianData32 88200) = 88200 ∧
      Ios.deLE16 (Ios.littleEndianData16 2) = 2 ∧
      Ios.deLE16 (Ios.littleEndianData16 16) = 16 ∧
      Ios.deLE32 (Ios.littleEndianData32 p.length) = p.length := by
  have hH : (Ios.asciiBytes "RIFF" ++ Ios.littleEndianData32 (p.length + 36) ++
      Ios.asciiBytes "WAVE" ++ Ios.asciiBytes "fmt " ++
      Ios.littleEndianData32 16 ++ Ios.littleEndianData16 1 ++
      Ios.littleEndianData16 1 ++ Ios.littleEndianData32 44100 ++
      Ios.littleEndianData32 88200 ++ Ios.littleEndianData16 2 ++
      Ios.littleEndianData16 16 ++ Ios.asciiBytes "data" ++
      Ios.littleEndianData32 p.length).length = 44 := by
    simp only [List.length_append, asciiBytes_RIFF, asciiBytes_WAVE,
      asciiBytes_fmt, asciiBytes_data, Ios.littleEndianData32,
      Ios.littleEndianData16, List.length_cons, List.length_nil]
  refine ⟨_, PCMToWAV_eq p h, ?_, List.take_left' hH, List.drop_left' hH,
    asciiBytes_RIFF, asciiBytes_WAVE, asciiBytes_fmt, asciiBytes_data,
    deLE32_littleEndianData32 (p.length + 36) (by omega), by decide, by decide,
    by decide, by decide, by decide, by decide,
    deLE32_littleEndianData32 p.length (by omega)⟩
  rw [List.length_append, hH]
  omega

/-- Claim C7 witness: the theorem applied to the two-byte payload
`[7, 7]`. -/
theorem c7_witness :
    ([7, 7] : List Nat).length + 44 < 4294967296 ∧
    (∃ w, Ios.PCMToWAV [7, 7] = some w ∧ w.length = 46 ∧ w.drop 44 = [7, 7]) := by
  refine ⟨by norm_num, ?_⟩
  obtain ⟨w, hw, hlen, -, hpay, -⟩ := c7_theorem [7, 7] (by norm_num)
  exact ⟨w, hw, by simpa using hlen, hpay⟩

/-! Claim C8. -/

/-- Claim C8 counterexample: the second iOS variant creates its recording
file as `audio_<UUID>.pcm` in the temporary directory — the name does not
start with `recording_` (so it does not match the
`recording_<unixEpochSeconds>.pcm` pattern) and the directory is not the
platform-standard per-app documents directory. -/
theorem c8_counterexample :
    (IosTemp.recordingFile "3F2504E0").2 = "audio_3F2504E0.pcm" ∧
    Android.kotlinStartsWith "audio_3F2504E0.pcm" "recording_" = false ∧
    Android.matchesRecordingName (IosTemp.recordingFile "3F2504E0").2 = false ∧
    (IosTemp.recordingFile "3F2504E0").1 = StorageDir.temporary ∧
    (IosTemp.recordingFile "3F2504E0").1 ≠ StorageDir.documents := by
  refine ⟨rfl, by decide, by decide, rfl, by decide⟩

/-- Claim C8 (amended): the Android module and the primary iOS module
place recordings in the platform-standard per-app directory (external
files directory on Android, Documents directory on iOS) under the name
`recording_<unixEpochSeconds>.pcm` (Android derives the seconds as
`currentTimeMillis / 1000`), and the two platforms generate identical
names for the same timestamp; the second iOS variant instead writes
`audio_<UUID>.pcm` into the temporary directory. -/
theorem c8_amended (millis secs : Nat) (uuid : String) :
    Android.getRecordingFile millis =
      (StorageDir.externalFiles, "recording_" ++ Nat.repr (millis / 1000) ++ ".pcm") ∧
    Ios.generateRecordingURL secs =
      (StorageDir.documents, "recording_" ++ Nat.repr secs ++ ".pcm") ∧
    (Android.getRecordingFile millis).2 = (Ios.generateRecordingURL (millis / 1000)).2 ∧
    IosTemp.recordingFile uuid = (StorageDir.temporary, "audio_" ++ uuid ++ ".pcm") ∧
    Android.matchesRecordingName (Android.getRecordingFile 1700000000123).2 = true ∧
    Android.matchesRecordingName (Ios.generateRecordingURL 1700000000).2 = true := by
  refine ⟨rfl, rfl, rfl, rfl, by decide, by decide⟩

/-! Claim C9. -/

/-- Claim C9: over any sequence of capture-loop iterations whose read
sizes are whole 16-bit frames (the `AudioRecord` contract for
`ENCODING_PCM_16BIT` mono), the destination file's byte size is a multiple
of 2 after every iteration, and the sequence of sizes starting from the
empty file is non-decreasing — including across dropped empty reads and a
terminating write error. -/
theorem c9_theorem (steps : List Android.CaptureStep)
    (h : ∀ s ∈ steps, 2 ∣ s.read) :
    (∀ m ∈ Android.captureFileSizes steps 0, 2 ∣ m) ∧
    List.Chain' (· ≤ ·) (0 :: Android.captureFileSizes steps 0) :=
  ⟨fun m hm => captureFileSizes_even steps 0 ⟨0, rfl⟩ h m hm,
   captureFileSizes_chain steps 0⟩

/-- Claim C9 witness: the theorem applied to a concrete trace with an even
read, an erroring even read, and a further even read. -/
theorem c9_witness :
    (∀ s ∈ [({ read := 4, writeErr := false } : Android.CaptureStep),
            { read := 2, writeErr := true }, { read := 6, writeErr := false }],
      2 ∣ s.read) ∧
    ((∀ m ∈ Android.captureFileSizes
        [({ read := 4, writeErr := false } : Android.CaptureStep),
         { read := 2, writeErr := true }, { read := 6, writeErr := false }] 0, 2 ∣ m) ∧
     List.Chain' (· ≤ ·) (0 :: Android.captureFileSizes
        [({ read := 4, writeErr := false } : Android.CaptureStep),
         { read := 2, writeErr := true }, { read := 6, writeErr := false }] 0)) :=
  ⟨by decide,
   c9_theorem [{ read := 4, writeErr := false }, { read := 2, writeErr := true },
     { read := 6, writeErr := false }] (by decide)⟩

/-! Claim C10. -/

/-- Claim C10 counterexample: on the iOS module a missing storage
directory (a throwing `contentsOfDirectory`) makes `getRecordings` reject
with `file_error` rather than resolve the empty list. -/
theorem c10_counterexample :
    Ios.getRecordings none = PResult.reject "file_error" "Could not list recordings" ∧
    Ios.getRecordings none ≠ PResult.resolve ([] : List String) :=
  ⟨rfl, by decide⟩

/-- Claim C10 (amended): the Android `getRecordings` resolves exactly the
names in the directory listing that start with `recording_` and end with
`.pcm`, sorted in descending lexicographic order, and resolves the empty
list rather than an error when the storage directory is missing; the iOS
module filters and sorts the same way but reports a failed directory
listing as a `file_error` rejection instead of an empty list. -/
theorem c10_amended (names : List String) :
    Android.getRecordings none = PResult.resolve [] ∧
    (∃ l, Android.getRecordings (some names) = PResult.resolve l ∧
      l.Perm (names.filter Android.matchesRecordingName) ∧
      l.Pairwise (fun a b => b ≤ a) ∧
      (∀ s ∈ l, Android.matchesRecordingName s = true) ∧
      (∀ s ∈ names, Android.matchesRecordingName s = true → s ∈ l)) ∧
    Ios.getRecordings none = PResult.reject "file_error" "Could not list recordings" := by
  refine ⟨rfl, ⟨_, rfl, sortDesc_perm _, sortDesc_pairwise _, ?_, ?_⟩, rfl⟩
  · intro s hs
    have hmem := (sortDesc_perm (names.filter Android.matchesRecordingName)).mem_iff.mp hs
    exact (List.mem_filter.mp hmem).2
  · intro s hs hmatch
    exact (sortDesc_perm (names.filter Android.matchesRecordingName)).mem_iff.mpr
      (List.mem_filter.mpr ⟨hs, hmatch⟩)
